import Mathlib

/-!
Verification of the multi-strategy course-extraction pipeline of
`DeepCourseCrawler` (`deep_crawl.py`).

The pipeline is embedded shallowly:

* page text is a `List Char` (`Str`);
* the parsed DOM (`BeautifulSoup` object) is modelled by the structure
  `Soup`, which records the answers the extraction code can ask of it:
  `select_one`/`select` results per CSS selector, the `og:title` and
  `meta description` contents, the parsed JSON-LD script blocks, the
  label/value shapes scanned by `_extract_from_tables`, the `<p>` texts,
  and the flattened page text `get_text(separator=' ', strip=True)`;
* the regular expressions of the source are embedded as values of a small
  regex AST `RE`, and `re.search` / `re.findall` (all calls in the source
  use `re.IGNORECASE`) are embedded by a leftmost, greedy, backtracking
  matcher;
* Python floats are represented exactly in hundredths (`Nat`): every
  numeric capture in the source has at most two decimal digits, so this
  scaling is exact; the gates `1000 < x < 200000` etc. become the
  corresponding scaled comparisons.
-/

abbrev Str := List Char

def str (s : String) : Str := s.toList

/-- ASCII lower-casing, the effect of `.lower()` / `re.IGNORECASE` on the
ASCII texts considered here. -/
def lowerA (c : Char) : Char :=
  if 'A' ≤ c ∧ c ≤ 'Z' then Char.ofNat (c.toNat + 32) else c

def upperA (c : Char) : Char :=
  if 'a' ≤ c ∧ c ≤ 'z' then Char.ofNat (c.toNat - 32) else c

def lowerStr (s : Str) : Str := s.map lowerA

def isDigitA (c : Char) : Bool := decide ('0' ≤ c ∧ c ≤ '9')

def isAlphaA (c : Char) : Bool :=
  decide (('a' ≤ c ∧ c ≤ 'z') ∨ ('A' ≤ c ∧ c ≤ 'Z'))

/-- Python's `\s` on ASCII text. -/
def isSpaceA (c : Char) : Bool :=
  decide (c = ' ' ∨ c = '\t' ∨ c = '\n' ∨ c = '\r' ∨ c = '\x0b' ∨ c = '\x0c')

/-- Python's `\w` on ASCII text. -/
def isWordA (c : Char) : Bool := isAlphaA c || isDigitA c || decide (c = '_')

/-- Whether `needle` begins `hay`, case-insensitively; returns the rest. -/
def dropLit : List Char → Str → Option Str
  | [], s => some s
  | _ :: _, [] => none
  | l :: ls, c :: cs => if lowerA c = lowerA l then dropLit ls cs else none

def headMatches (needle hay : Str) : Bool :=
  match dropLit needle hay with
  | some _ => true
  | none => false

/-- Python's `needle in hay` substring test (case handled by the caller). -/
def isSubstr (needle : Str) : Str → Bool
  | [] => decide (needle = [])
  | c :: cs => headMatches needle (c :: cs) || isSubstr needle cs

/-- Length of the maximal run of characters satisfying `p`. -/
def charRun (p : Char → Bool) : Str → Nat
  | [] => 0
  | c :: cs => if p c then charRun p cs + 1 else 0

/-- Regex AST covering the constructs used by `deep_crawl.py`'s patterns:
case-insensitive literals, repeated character classes `[..]{lo,hi}`,
sequencing, ordered alternation, greedy option `(?:..)?`, and the single
capturing group each pattern carries. -/
inductive RE where
  | lit (s : List Char)
  | cls (p : Char → Bool) (lo : Nat) (hi : Option Nat)
  | seq (a b : RE)
  | alt (a b : RE)
  | opt (a : RE)
  | grp (a : RE)

def seqCap : Option Str → Option Str → Option Str
  | some a, _ => some a
  | none, b => b

/-- All ways the regex can match a prefix of `s`, as (remaining suffix,
group-1 capture) pairs, in backtracking priority order: greedy repetition
(longest first), left alternative first, option taken first. -/
def RE.mtch : RE → Str → List (Str × Option Str)
  | .lit l, s =>
    match dropLit l s with
    | some r => [(r, none)]
    | none => []
  | .cls p lo hi, s =>
    let run := charRun p s
    let k := match hi with
      | some h => min run h
      | none => run
    if k < lo then []
    else (List.range (k + 1 - lo)).map (fun i => (s.drop (k - i), none))
  | .seq a b, s =>
    ((a.mtch s).map (fun rc =>
      (b.mtch rc.1).map (fun rc2 => (rc2.1, seqCap rc.2 rc2.2)))).flatten
  | .alt a b, s => a.mtch s ++ b.mtch s
  | .opt a, s => a.mtch s ++ [(s, none)]
  | .grp a, s =>
    (a.mtch s).map (fun rc => (rc.1, some (s.take (s.length - rc.1.length))))

/-- `re.search` (with `re.IGNORECASE`): leftmost match wins; returns the
whole match, the group-1 capture, and the suffix after the match. -/
def searchGo (r : RE) : Str → Option (Str × Option Str × Str)
  | [] =>
    match (r.mtch []).head? with
    | some rc => some ([], rc.2, [])
    | none => none
  | c :: cs =>
    match (r.mtch (c :: cs)).head? with
    | some rc =>
      some ((c :: cs).take ((c :: cs).length - rc.1.length), rc.2, rc.1)
    | none => searchGo r cs

/-- `re.search(pattern, text, re.IGNORECASE)` followed by `.group(1)`;
every searched pattern in the source binds group 1 whenever it matches. -/
def research (r : RE) (s : Str) : Option Str :=
  match searchGo r s with
  | some (_, cap, _) => cap
  | none => none

/-- `re.findall`: successive non-overlapping leftmost matches; per Python,
each element is the group-1 capture when the pattern has a group and the
whole match otherwise (`cap.getD full`). -/
def findallGo (r : RE) : Str → Nat → List Str
  | _, 0 => []
  | s, fuel + 1 =>
    match searchGo r s with
    | some (full, cap, rest) =>
      if rest.length < s.length then
        (cap.getD full) :: findallGo r rest fuel
      else [cap.getD full]
    | none => []

def findall (r : RE) (s : Str) : List Str :=
  findallGo r s (s.length + 1)

def reSeq (l : List RE) : RE := l.foldr RE.seq (.lit [])

def reAlt1 (a : RE) (l : List RE) : RE := l.foldl RE.alt a

def lit (s : String) : RE := .lit s.toList

def cls1 (p : Char → Bool) : RE := .cls p 1 (some 1)

def star (p : Char → Bool) : RE := .cls p 0 none

def plus (p : Char → Bool) : RE := .cls p 1 none

def copt (p : Char → Bool) : RE := .cls p 0 (some 1)

def rep (p : Char → Bool) (lo hi : Nat) : RE := .cls p lo (some hi)

def digitComma (c : Char) : Bool := isDigitA c || decide (c = ',')

def colonSpace (c : Char) : Bool := decide (c = ':') || isSpaceA c

def spaceDash (c : Char) : Bool := isSpaceA c || decide (c = '-')

def dollarC (c : Char) : Bool := decide (c = '$')

def dotC (c : Char) : Bool := decide (c = '.')

def sC (c : Char) : Bool := decide (lowerA c = 's')

def dashSpace (c : Char) : Bool := decide (c = '-' ∨ c = ' ')

/-! ### Python numeric helpers

All numeric captures in the source match `[\d,]+(\.\d{2})?` or
`\d{2}(\.\d{1,2})?`, i.e. have at most two decimal digits, so the value of
`float(...)` is represented exactly in hundredths as a `Nat`. -/

def digitsToNat (s : Str) : Nat :=
  s.foldl (fun n c => 10 * n + (c.toNat - 48)) 0

/-- Hundredths contributed by the digits after the decimal point (at most
two digits occur in any capture of the source's patterns). -/
def fracH : Str → Nat
  | [] => 0
  | [a] => 10 * (a.toNat - 48)
  | a :: b :: _ => 10 * (a.toNat - 48) + (b.toNat - 48)

/-- `float(s)` for the digit/dot strings produced by the source's captures
(commas already removed by the caller), in exact hundredths; `none` models
the `ValueError` Python raises on strings with no digits. -/
def pyFloatH (s : Str) : Option Nat :=
  let ip := s.takeWhile (fun c => c ≠ '.')
  match s.dropWhile (fun c => c ≠ '.') with
  | [] =>
    if ip ≠ [] ∧ ip.all isDigitA then some (100 * digitsToNat ip) else none
  | _ :: t =>
    if (ip ≠ [] ∨ t ≠ []) ∧ ip.all isDigitA ∧ t.all isDigitA then
      some (100 * digitsToNat ip + fracH t)
    else none

def dropCommas (s : Str) : Str := s.filter (fun c => c ≠ ',')

/-- Round a value given in hundredths to a whole number, ties to even: the
rounding of Python's `format(x, ',.0f')`. -/
def roundHE (h : Nat) : Nat :=
  let n := h / 100
  let r := h % 100
  if r < 50 then n else if 50 < r then n + 1
  else if n % 2 = 0 then n else n + 1

def natDigits (n : Nat) : Str := Nat.toDigits 10 n

/-- Insert thousands separators into a reversed digit list. -/
def commaRev : Str → Str
  | [] => []
  | [a] => [a]
  | [a, b] => [a, b]
  | [a, b, c] => [a, b, c]
  | a :: b :: c :: rest => a :: b :: c :: ',' :: commaRev rest

/-- `f"${x:,.0f}"` on a value in hundredths. -/
def formatFee (h : Nat) : Str :=
  '$' :: (commaRev (natDigits (roundHE h)).reverse).reverse

/-- `str(float(x))` for a non-negative value in hundredths with at most two
decimal digits: Python prints the shortest decimal form, i.e. trailing
zeros of the fraction are dropped and a whole number prints as `N.0`. -/
def pyFloatStrH (h : Nat) : Str :=
  let i := h / 100
  let f := h % 100
  natDigits i ++ '.' ::
    (if f = 0 then ['0']
     else if f % 10 = 0 then natDigits (f / 10)
     else if f < 10 then '0' :: natDigits f
     else natDigits f)

/-! ### The regular expressions of `deep_crawl.py`

Each `def` below embeds one pattern string of the source, written with the
same sub-pattern order (alternation order and greediness are significant).
All uses in the source pass `re.IGNORECASE`, which the matcher applies. -/

/-- `([\d,]+(?:\.\d{2})?)` — the fee capture of the qualified patterns. -/
def feeNumD : RE :=
  .grp (reSeq [plus digitComma, .opt (reSeq [cls1 dotC, rep isDigitA 2 2])])

/-- `([\d,]+)` — the bare fee capture. -/
def feeNum : RE := .grp (plus digitComma)

/-- `(?:domestic|australian|local)[\s\w]*(?:fee|cost|tuition)[s]?[:\s]*\$?([\d,]+(?:\.\d{2})?)` -/
def domPat1 : RE := reSeq
  [reAlt1 (lit "domestic") [lit "australian", lit "local"],
   star (fun c => isSpaceA c || isWordA c),
   reAlt1 (lit "fee") [lit "cost", lit "tuition"], copt sC,
   star colonSpace, copt dollarC, feeNumD]

/-- `(?:CSP|commonwealth[\s]*supported)[:\s]*\$?([\d,]+)` -/
def domPat2 : RE := reSeq
  [reAlt1 (lit "csp") [reSeq [lit "commonwealth", star isSpaceA, lit "supported"]],
   star colonSpace, copt dollarC, feeNum]

/-- `per[\s]*year` -/
def perYear : RE := reSeq [lit "per", star isSpaceA, lit "year"]

/-- `p\.?a\.?` -/
def pa : RE := reSeq [lit "p", copt dotC, lit "a", copt dotC]

/-- `(?:annual[\s]*)?(?:fee|tuition)[:\s]*\$?([\d,]+)[\s]*(?:per[\s]*year|p\.?a\.?|annually)` -/
def domPat3 : RE := reSeq
  [.opt (reSeq [lit "annual", star isSpaceA]),
   reAlt1 (lit "fee") [lit "tuition"], star colonSpace, copt dollarC,
   feeNum, star isSpaceA, reAlt1 perYear [pa, lit "annually"]]

def feeDomesticPatterns : List RE := [domPat1, domPat2, domPat3]

/-- `(?:international|overseas)[\s\w]*(?:fee|cost|tuition)[s]?[:\s]*\$?([\d,]+(?:\.\d{2})?)` -/
def intPat1 : RE := reSeq
  [reAlt1 (lit "international") [lit "overseas"],
   star (fun c => isSpaceA c || isWordA c),
   reAlt1 (lit "fee") [lit "cost", lit "tuition"], copt sC,
   star colonSpace, copt dollarC, feeNumD]

/-- `(?:international)[\s\w]*\$?([\d,]+)[\s]*(?:per[\s]*year|p\.?a\.?)` -/
def intPat2 : RE := reSeq
  [lit "international", star (fun c => isSpaceA c || isWordA c),
   copt dollarC, feeNum, star isSpaceA, reAlt1 perYear [pa]]

def feeInternationalPatterns : List RE := [intPat1, intPat2]

/-- `\$([\d,]+)[\s]*(?:per[\s]*year|annually|p\.?a\.?)` — the generic
domestic fallback pattern. -/
def feeFallback : RE := reSeq
  [lit "$", feeNum, star isSpaceA, reAlt1 perYear [lit "annually", pa]]

/-- `(\d{2}(?:\.\d{1,2})?)` — the ATAR capture. -/
def atarNum : RE :=
  .grp (reSeq [rep isDigitA 2 2, .opt (reSeq [cls1 dotC, rep isDigitA 1 2])])

/-- `ATAR[:\s]+(\d{2}(?:\.\d{1,2})?)` -/
def atarPat1 : RE := reSeq [lit "atar", plus colonSpace, atarNum]

/-- `(?:selection[\s]+rank|minimum[\s]+ATAR)[:\s]+(\d{2}(?:\.\d{1,2})?)` -/
def atarPat2 : RE := reSeq
  [reAlt1 (reSeq [lit "selection", plus isSpaceA, lit "rank"])
          [reSeq [lit "minimum", plus isSpaceA, lit "atar"]],
   plus colonSpace, atarNum]

/-- `(\d{2}(?:\.\d{1,2})?)[\s]*ATAR` -/
def atarPat3 : RE := reSeq [atarNum, star isSpaceA, lit "atar"]

def atarPatterns : List RE := [atarPat1, atarPat2, atarPat3]

/-- `\d+(?:\.\d+)?` -/
def numDec : RE := reSeq [plus isDigitA, .opt (reSeq [cls1 dotC, plus isDigitA])]

/-- `full[- ]?time` -/
def fullTime : RE := reSeq [lit "full", copt dashSpace, lit "time"]

/-- `part[- ]?time` -/
def partTime : RE := reSeq [lit "part", copt dashSpace, lit "time"]

/-- `years?|months?|semesters?|weeks?` -/
def unitWord : RE :=
  reAlt1 (reSeq [lit "year", copt sC])
    [reSeq [lit "month", copt sC], reSeq [lit "semester", copt sC],
     reSeq [lit "week", copt sC]]

/-- `(?:duration|length|time)[:\s]+(\d+(?:\.\d+)?[\s-]*(?:to[\s-]*\d+(?:\.\d+)?)?[\s]*(?:years?|months?|semesters?|weeks?)(?:[\s]*(?:full[- ]?time|part[- ]?time|FT|PT))?)` -/
def durPat1 : RE := reSeq
  [reAlt1 (lit "duration") [lit "length", lit "time"], plus colonSpace,
   .grp (reSeq
     [numDec, star spaceDash,
      .opt (reSeq [lit "to", star spaceDash, numDec]), star isSpaceA,
      unitWord,
      .opt (reSeq [star isSpaceA,
        reAlt1 fullTime [partTime, lit "ft", lit "pt"]])])]

/-- `(\d+(?:\.\d+)?[\s-]*(?:to[\s-]*\d+(?:\.\d+)?)?[\s]*years?[\s]*(?:full[- ]?time|part[- ]?time)?)` -/
def durPat2 : RE :=
  .grp (reSeq
    [numDec, star spaceDash,
     .opt (reSeq [lit "to", star spaceDash, numDec]), star isSpaceA,
     lit "year", copt sC, star isSpaceA, .opt (reAlt1 fullTime [partTime])])

/-- `(?:full[- ]?time)[:\s]+(\d+(?:\.\d+)?[\s]*(?:years?|months?|semesters?))` -/
def durPat3 : RE := reSeq
  [fullTime, plus colonSpace,
   .grp (reSeq [numDec, star isSpaceA,
     reAlt1 (reSeq [lit "year", copt sC])
       [reSeq [lit "month", copt sC], reSeq [lit "semester", copt sC]]])]

/-- `(?:part[- ]?time)[:\s]+(\d+(?:\.\d+)?[\s]*(?:years?|months?|semesters?))` -/
def durPat4 : RE := reSeq
  [partTime, plus colonSpace,
   .grp (reSeq [numDec, star isSpaceA,
     reAlt1 (reSeq [lit "year", copt sC])
       [reSeq [lit "month", copt sC], reSeq [lit "semester", copt sC]]])]

/-- `(\d+[\s-]*(?:year|yr)s?[\s]+(?:full[- ]?time|FT))` -/
def durPat5 : RE :=
  .grp (reSeq [plus isDigitA, star spaceDash,
    reAlt1 (lit "year") [lit "yr"], copt sC, plus isSpaceA,
    reAlt1 fullTime [lit "ft"]])

/-- `(\d+[\s-]*(?:year|yr)s?[\s]+(?:part[- ]?time|PT))` -/
def durPat6 : RE :=
  .grp (reSeq [plus isDigitA, star spaceDash,
    reAlt1 (lit "year") [lit "yr"], copt sC, plus isSpaceA,
    reAlt1 partTime [lit "pt"]])

def durationPatterns : List RE :=
  [durPat1, durPat2, durPat3, durPat4, durPat5, durPat6]

/-- `(?:entry requirements?|admission requirements?|prerequisites?)[:\s]+([^.]+\.)` -/
def reqPat1 : RE := reSeq
  [reAlt1 (reSeq [lit "entry requirement", copt sC])
     [reSeq [lit "admission requirement", copt sC],
      reSeq [lit "prerequisite", copt sC]],
   plus colonSpace,
   .grp (reSeq [plus (fun c => c ≠ '.'), cls1 dotC])]

/-- `(?:you(?:\'ll)?[\s]+need|applicants?[\s]+must[\s]+have)[:\s]+([^.]+\.)` -/
def reqPat2 : RE := reSeq
  [reAlt1 (reSeq [lit "you", .opt (RE.lit ['\x27', 'l', 'l']),
                  plus isSpaceA, lit "need"])
     [reSeq [lit "applicant", copt sC, plus isSpaceA, lit "must",
             plus isSpaceA, lit "have"]],
   plus colonSpace,
   .grp (reSeq [plus (fun c => c ≠ '.'), cls1 dotC])]

def requirementPatterns : List RE := [reqPat1, reqPat2]

/-- `(?:intake|start|commence)[s]?[:\s]+(?:in[\s]+)?([A-Za-z]+[\s]+\d{4})` -/
def intakePat1 : RE := reSeq
  [reAlt1 (lit "intake") [lit "start", lit "commence"], copt sC,
   plus colonSpace, .opt (reSeq [lit "in", plus isSpaceA]),
   .grp (reSeq [plus isAlphaA, plus isSpaceA, rep isDigitA 4 4])]

/-- `(?:semester[\s]+[12]|term[\s]+[1-4])[,\s]+(\d{4})` -/
def intakePat2 : RE := reSeq
  [reAlt1 (reSeq [lit "semester", plus isSpaceA,
                  cls1 (fun c => decide (c = '1' ∨ c = '2'))])
     [reSeq [lit "term", plus isSpaceA,
             cls1 (fun c => decide ('1' ≤ c ∧ c ≤ '4'))]],
   plus (fun c => decide (c = ',') || isSpaceA c),
   .grp (rep isDigitA 4 4)]

/-- `february|march|july|august` -/
def monthAlt : RE := reAlt1 (lit "february") [lit "march", lit "july", lit "august"]

/-- `(?:february|march|july|august)[\s]+(?:and[\s]+)?(?:february|march|july|august)?[\s]*(?:intake)?`
(no capturing group: `re.findall` yields the whole match). -/
def intakePat3 : RE := reSeq
  [monthAlt, plus isSpaceA, .opt (reSeq [lit "and", plus isSpaceA]),
   .opt monthAlt, star isSpaceA, .opt (lit "intake")]

def intakePatterns : List RE := [intakePat1, intakePat2, intakePat3]

/-! ### Generic Python helpers -/

def pyStrip (s : Str) : Str :=
  ((s.dropWhile isSpaceA).reverse.dropWhile isSpaceA).reverse

/-- `sep.join(xs)`. -/
def joinSep (sep : Str) : List Str → Str
  | [] => []
  | [x] => x
  | x :: y :: rest => x ++ sep ++ joinSep sep (y :: rest)

def alookup {α : Type} (k : String) : List (String × α) → Option α
  | [] => none
  | kv :: rest => if kv.1 = k then some kv.2 else alookup k rest

/-- Assignment `d[k] = v` on an insertion-ordered dict. -/
def aupdate {α : Type} (k : String) (v : α) : List (String × α) → List (String × α)
  | [] => [(k, v)]
  | kv :: rest => if kv.1 = k then (k, v) :: rest else kv :: aupdate k v rest

/-- `d.update(upd)`. -/
def aupdAll {α : Type} (d upd : List (String × α)) : List (String × α) :=
  upd.foldl (fun acc kv => aupdate kv.1 kv.2 acc) d

/-- Iteration order of `set(xs)` within one CPython process is a fixed
function of `xs`; it is modelled as first-occurrence order. -/
def pySetDedup : List Str → List Str → List Str
  | _, [] => []
  | seen, x :: xs =>
    if seen.contains x then pySetDedup seen xs
    else x :: pySetDedup (x :: seen) xs

/-! ### JSON values (results of `json.loads` on the ld+json scripts) -/

inductive Json where
  | null
  | bool (b : Bool)
  | num (n : Int)
  | str (s : Str)
  | arr (xs : List Json)
  | obj (fields : List (String × Json))

/-- Python `str(x)` as used by the f-strings of `_parse_schema_item`; the
prices occurring there are strings or integers (`repr` of containers is
not needed for any page considered). -/
def pyStr : Json → Str
  | .str s => s
  | .num n => str (toString n)
  | .bool b => if b then str "True" else str "False"
  | .null => str "None"
  | .arr _ => []
  | .obj _ => []

/-! ### The parsed DOM

`Soup` records exactly the queries the extraction methods make of the
`BeautifulSoup` object: element texts are the values of
`get_text(strip=True)`, `text` is `get_text(separator=' ', strip=True)`
of the whole page (which includes script contents), `ldScripts` holds the
`json.loads` result of each `application/ld+json` script (`none` when
loading raises), `dls`/`tableRows`/`containerPairs` are the label/value
shapes scanned by `_extract_from_tables`, and `paragraphs` the texts of
`find_all('p')`. -/

structure Elem where
  text : Str
deriving DecidableEq

structure Soup where
  select_one : String → Option Elem
  select : String → List Elem
  ogTitle : Option Str
  metaDescription : Option Str
  ldScripts : List (Option Json)
  dls : List (List Str × List Str)
  tableRows : List (List Str)
  containerPairs : List (Option Str × Option Str)
  paragraphs : List Str
  text : Str

/-! ### `_extract_json_ld` / `_parse_schema_item` -/

def schemaWhitelist : List String :=
  ["Course", "EducationalOccupationalProgram", "Program",
   "CollegeOrUniversity", "Organization"]

/-- `_parse_schema_item`: extract course data from one Schema.org item. -/
def parse_schema_item : Json → List (String × Json)
  | .obj item =>
    let schema_type := (alookup "@type" item).getD (Json.str [])
    let isCourse :=
      match schema_type with
      | Json.str s => schemaWhitelist.any (fun t => s = str t)
      | _ => false
    if isCourse then
      let r : List (String × Json) := []
      let r := match alookup "name" item with
        | some v => aupdate "name" v r
        | none => r
      let r := match alookup "description" item with
        | some v => aupdate "description" v r
        | none => r
      let r := match alookup "timeToComplete" item with
        | some v => aupdate "duration" v r
        | none =>
          match alookup "duration" item with
          | some v => aupdate "duration" v r
          | none => r
      let r := match alookup "offers" item with
        | some (Json.obj offers) =>
          match alookup "price" offers with
          | some p => aupdate "fees" (Json.str ('$' :: pyStr p)) r
          | none => r
        | some (Json.arr (Json.obj o1 :: _)) =>
          aupdate "fees"
            (Json.str ('$' :: pyStr ((alookup "price" o1).getD (Json.str [])))) r
        | _ => r
      let r := match alookup "provider" item with
        | some (Json.obj p) =>
          aupdate "university" ((alookup "name" p).getD (Json.str [])) r
        | _ => r
      let r := match alookup "educationalCredentialAwarded" item with
        | some v => aupdate "credential" v r
        | none => r
      let r := match alookup "occupationalCategory" item with
        | some v => aupdate "careers" v r
        | none => r
      r
    else []
  | _ => []

/-- `_extract_json_ld`: fold the parsed ld+json scripts; a script whose
`json.loads` raised (`none`) is skipped; an array block is parsed
item-wise; results are merged with `dict.update`. -/
def extract_json_ld (soup : Soup) : List (String × Json) :=
  soup.ldScripts.foldl
    (fun acc script =>
      match script with
      | none => acc
      | some (Json.arr items) =>
        items.foldl (fun a item => aupdAll a (parse_schema_item item)) acc
      | some j => aupdAll acc (parse_schema_item j))
    []

/-! ### `_extract_from_tables` / `_map_table_value` -/

def key_mappings : List (String × List String) :=
  [("duration", ["duration", "length", "time to complete", "study period",
                 "course length"]),
   ("fees", ["fees", "tuition", "cost", "price", "annual fee", "course fee"]),
   ("fees_domestic", ["domestic fee", "csp", "commonwealth supported",
                      "australian fee"]),
   ("fees_international", ["international fee", "overseas fee",
                           "international tuition"]),
   ("atar", ["atar", "selection rank", "guaranteed atar", "minimum atar"]),
   ("credit_points", ["credit points", "units", "credits", "credit hours",
                      "total units"]),
   ("course_code", ["course code", "program code", "code", "cricos"]),
   ("intake", ["intake", "start date", "commencement", "start"]),
   ("campus", ["campus", "location", "study location"]),
   ("study_mode", ["study mode", "mode of delivery", "delivery mode",
                   "attendance"])]

/-- The key the label maps to: the first entry of `key_mappings` one of
whose patterns occurs in the (lower-cased) label (the source `break`s at
the first hit). -/
def firstKey : List (String × List String) → Str → Option String
  | [], _ => none
  | kp :: rest, label =>
    if kp.2.any (fun p => isSubstr (str p) label) then some kp.1
    else firstKey rest label

/-- `_map_table_value`: drop values shorter than 2 characters; store under
the mapped key, overwriting only a strictly shorter stored value. -/
def map_table_value (table_data : List (String × Str)) (label value : Str) :
    List (String × Str) :=
  if value.length < 2 then table_data
  else
    match firstKey key_mappings label with
    | none => table_data
    | some key =>
      match alookup key table_data with
      | none => aupdate key value table_data
      | some old =>
        if old.length < value.length then aupdate key value table_data
        else table_data

/-- The label/value pairs `_extract_from_tables` visits, in its scan
order: `dl` pairs (`zip(dts, dds)`), rows with at least two cells, then
key-info/detail/fact containers having both a label and a value element. -/
def tablePairs (soup : Soup) : List (Str × Str) :=
  ((soup.dls.map (fun d => d.1.zip d.2)).flatten) ++
  (soup.tableRows.filterMap (fun cells =>
    match cells with
    | c0 :: c1 :: _ => some (c0, c1)
    | _ => none)) ++
  (soup.containerPairs.filterMap (fun lv =>
    match lv with
    | (some l, some v) => some (l, v)
    | _ => none))

def processPairs (pairs : List (Str × Str)) : List (String × Str) :=
  pairs.foldl (fun td lv => map_table_value td (lowerStr lv.1) lv.2) []

def extract_from_tables (soup : Soup) : List (String × Str) :=
  processPairs (tablePairs soup)

/-! ### `_smart_extract_name` -/

def nameSelectors : List String :=
  ["h1.course-title", "h1.program-title", ".course-header h1",
   ".program-header h1", "[class*=\"course-name\"]",
   "[class*=\"degree-title\"]", ".hero-content h1", ".banner-content h1",
   "article h1", ".page-header h1", "main h1", "h1"]

def nameBadWords : List String :=
  ["menu", "navigation", "search", "login", "home"]

/-- The name filter of `_smart_extract_name`: non-empty, length strictly
between 5 and 200, and the lower-cased text contains none of the generic
words as a substring (`x in name.lower()`). -/
def namePass (name : Str) : Bool :=
  decide (name ≠ []) && decide (5 < name.length) &&
  decide (name.length < 200) &&
  !(nameBadWords.any (fun w => isSubstr (str w) (lowerStr name)))

def nameCascade : List String → Soup → Option Str
  | [], _ => none
  | sel :: rest, soup =>
    match soup.select_one sel with
    | some e => if namePass e.text then some e.text else nameCascade rest soup
    | none => nameCascade rest soup

/-- The path component of `urlparse`, for the URL shapes considered. -/
def afterScheme : Str → Option Str
  | [] => none
  | ':' :: '/' :: '/' :: rest => some rest
  | _ :: rest => afterScheme rest

def urlPath (url : String) : Str :=
  let cs := url.toList
  let tail :=
    match afterScheme cs with
    | some rest => rest.dropWhile (fun c => c ≠ '/')
    | none => cs
  tail.takeWhile (fun c => c ≠ '?' ∧ c ≠ '#')

def splitOnC (sep : Char) : Str → List Str
  | [] => [[]]
  | c :: cs =>
    if c = sep then [] :: splitOnC sep cs
    else
      match splitOnC sep cs with
      | h :: t => (c :: h) :: t
      | [] => [[c]]

/-- Python `str.title()` on ASCII text. -/
def pyTitle : Bool → Str → Str
  | _, [] => []
  | prev, c :: cs =>
    (if isAlphaA c then (if prev then lowerA c else upperA c) else c) ::
      pyTitle (isAlphaA c) cs

/-- Priority 3 of `_smart_extract_name`: last path segment longer than 3
characters, dashes to spaces, title-cased. -/
def nameFromUrl (url : String) : Str :=
  let parts := (splitOnC '/' (urlPath url)).filter
    (fun p => p ≠ [] ∧ 3 < p.length)
  match parts.getLast? with
  | some last => pyTitle false (last.map (fun c => if c = '-' then ' ' else c))
  | none => []

def smart_extract_name (soup : Soup) (url : String) : Str :=
  match nameCascade nameSelectors soup with
  | some n => n
  | none =>
    match soup.ogTitle with
    | some c => if c ≠ [] then c else nameFromUrl url
    | none => nameFromUrl url

/-! ### `_smart_extract_description` -/

def descriptionSelectors : List String :=
  [".course-description", ".program-description", ".overview",
   "[class*=\"overview\"]", "[class*=\"summary\"]", "[class*=\"intro\"]",
   ".lead", ".excerpt", "article > p", ".content > p"]

def descSelGo : List String → Soup → Option Str
  | [], _ => none
  | sel :: rest, soup =>
    match soup.select_one sel with
    | some e => if 100 < e.text.length then some (e.text.take 500)
                else descSelGo rest soup
    | none => descSelGo rest soup

def descParaGo : List Str → Str
  | [] => []
  | p :: ps =>
    if decide (100 < p.length) &&
       !([str "cookie", str "privacy", str "javascript"].any
           (fun w => isSubstr w (lowerStr p)))
    then p.take 500 else descParaGo ps

def descAfterMeta (soup : Soup) : Str :=
  match descSelGo descriptionSelectors soup with
  | some d => d
  | none => descParaGo soup.paragraphs

def smart_extract_description (soup : Soup) : Str :=
  match soup.metaDescription with
  | some c => if 50 < c.length then c.take 500 else descAfterMeta soup
  | none => descAfterMeta soup

/-! ### `_smart_extract_duration` -/

def durationSelectors : List String :=
  [".duration", "[class*=\"duration\"]", "[data-duration]"]

def durGo : List RE → Str → Option Str
  | [], _ => none
  | p :: ps, t =>
    match research p t with
    | some cap =>
      let d := pyStrip cap
      if d ≠ [] then some d else durGo ps t
    | none => durGo ps t

def durKeyword (s : Str) : Bool :=
  [str "year", str "month", str "semester"].any
    (fun k => isSubstr k (lowerStr s))

def durSelGo : List String → Soup → Str
  | [], _ => []
  | sel :: rest, soup =>
    match soup.select_one sel with
    | some e => if durKeyword e.text then e.text else durSelGo rest soup
    | none => durSelGo rest soup

def smart_extract_duration (soup : Soup) (text : Str) : Str :=
  match durGo durationPatterns text with
  | some d => d
  | none => durSelGo durationSelectors soup

/-! ### `_smart_extract_fees` -/

/-- The per-pattern loop of `_smart_extract_fees`: on a match, strip
commas, parse, and return the formatted fee when `1000 < fee < 200000`
(`100000 < h < 20000000` in hundredths); otherwise — parse failure or
gate failure alike — continue with the remaining patterns. -/
def feesGo : List RE → Str → Option Str
  | [], _ => none
  | p :: ps, t =>
    match research p t with
    | some cap =>
      match pyFloatH (dropCommas cap) with
      | some h =>
        if 100000 < h ∧ h < 20000000 then some (formatFee h) else feesGo ps t
      | none => feesGo ps t
    | none => feesGo ps t

/-- The generic-fallback loop: first `findall` hit whose value satisfies
`5000 < fee < 50000` (`500000 < h < 5000000` in hundredths). -/
def fallbackScan : List Str → Str
  | [] => []
  | m :: ms =>
    match pyFloatH (dropCommas m) with
    | some h =>
      if 500000 < h ∧ h < 5000000 then formatFee h else fallbackScan ms
    | none => fallbackScan ms

def smart_extract_fees (_soup : Soup) (text : Str) (fee_type : String) : Str :=
  let patterns :=
    if fee_type = "domestic" then feeDomesticPatterns
    else feeInternationalPatterns
  match feesGo patterns text with
  | some r => r
  | none =>
    if fee_type = "domestic" then fallbackScan (findall feeFallback text)
    else []

/-! ### `_smart_extract_requirements` -/

def requirementSelectors : List String :=
  ["[class*=\"requirement\"]", "[class*=\"eligibility\"]",
   "[class*=\"entry\"]", "[class*=\"admission\"]",
   "[class*=\"prerequisite\"]"]

def smart_extract_requirements (soup : Soup) (text : Str) : Str :=
  let reqs :=
    (requirementSelectors.map (fun sel =>
      ((soup.select sel).take 2).filterMap (fun e =>
        if 20 < e.text.length ∧ e.text.length < 500 then
          some (e.text.take 200)
        else none))).flatten
  let reqs := reqs ++ requirementPatterns.filterMap (fun p =>
    match research p text with
    | some cap => some ((pyStrip cap).take 200)
    | none => none)
  if reqs.isEmpty then [] else joinSep (str " | ") (reqs.take 2)

/-! ### `_extract_atar` -/

/-- The per-pattern loop of `_extract_atar`: on a match, accept when
`50 <= atar <= 99.95` (`5000 ≤ h ≤ 9995` in hundredths) and return
`str(float(...))`; otherwise continue with the remaining patterns. -/
def atarGo : List RE → Str → Str
  | [], _ => []
  | p :: ps, t =>
    match research p t with
    | some cap =>
      match pyFloatH cap with
      | some h =>
        if 5000 ≤ h ∧ h ≤ 9995 then pyFloatStrH h else atarGo ps t
      | none => atarGo ps t
    | none => atarGo ps t

def extract_atar (text : Str) : Str := atarGo atarPatterns text

/-! ### `_smart_extract_study_mode`, `_extract_intake`, `_extract_campus` -/

def mode_keywords : List (String × List String) :=
  [("On-campus", ["on-campus", "on campus", "face-to-face", "in person"]),
   ("Online", ["online", "distance", "remote"]),
   ("Flexible", ["flexible", "blended", "hybrid"]),
   ("Part-time", ["part-time", "part time"]),
   ("Full-time", ["full-time", "full time"])]

def smart_extract_study_mode (_soup : Soup) (text : Str) : Str :=
  let tl := lowerStr text
  let modes := mode_keywords.filterMap (fun kv =>
    if kv.2.any (fun kw => isSubstr (str kw) tl) then some (str kv.1)
    else none)
  if modes.isEmpty then [] else joinSep (str ", ") modes

def extract_intake (text : Str) : Str :=
  let intakes := (intakePatterns.map (fun p => (findall p text).take 3)).flatten
  if intakes.isEmpty then [] else joinSep (str ", ") (pySetDedup [] intakes)

def campuses : List String :=
  ["Sydney", "Melbourne", "Brisbane", "Perth", "Canberra", "Adelaide",
   "Gold Coast", "Parramatta", "Kensington", "St Lucia", "Gatton",
   "Clayton", "Parkville"]

def extract_campus (_soup : Soup) (text : Str) : Str :=
  let tl := lowerStr text
  let found := campuses.filterMap (fun c =>
    if isSubstr (lowerStr (str c)) tl then some (str c) else none)
  if found.isEmpty then [] else joinSep (str ", ") (found.take 3)

/-! ### `_smart_extract_careers` -/

def careerSelectors : List String :=
  ["[class*=\"career\"] li", "[class*=\"outcome\"] li",
   "[class*=\"employment\"] li", "[class*=\"graduate\"] li",
   ".careers li", ".opportunities li"]

def careersGo : List String → Soup → List Str
  | [], _ => []
  | sel :: rest, soup =>
    let cs := ((soup.select sel).take 10).filterMap (fun e =>
      if 5 < e.text.length ∧ e.text.length < 100 then some e.text else none)
    if cs.isEmpty then careersGo rest soup else cs

def smart_extract_careers (soup : Soup) : List Str :=
  careersGo careerSelectors soup

/-! ### `extract_course_details` -/

structure CourseRecord where
  url : String
  name : Str
  description : Str
  duration : Str
  fees_domestic : Str
  fees_international : Str
  entry_requirements : Str
  atar : Str
  study_mode : Str
  intake : Str
  campus : Str
  career_outcomes : List Str
deriving DecidableEq

/-- `extract_course_details`: builds the record from the `_smart_*`
helpers over the parsed page and its flattened text. Note that, as in the
source, neither `_extract_json_ld` nor `_extract_from_tables` is invoked
here. -/
def extract_course_details (soup : Soup) (url : String) : CourseRecord :=
  let text := soup.text
  { url := url
    name := smart_extract_name soup url
    description := smart_extract_description soup
    duration := smart_extract_duration soup text
    fees_domestic := smart_extract_fees soup text "domestic"
    fees_international := smart_extract_fees soup text "international"
    entry_requirements := smart_extract_requirements soup text
    atar := extract_atar text
    study_mode := smart_extract_study_mode soup text
    intake := extract_intake text
    campus := extract_campus soup text
    career_outcomes := smart_extract_careers soup }

/-! ### Resolver-level helper definitions used in statements -/

/-- One update step of `_map_table_value`'s keep-the-longer policy, on the
value stored for a fixed key: a new value replaces the stored one exactly
when it is strictly longer. -/
def pick (acc : Option Str) (v : Str) : Option Str :=
  match acc with
  | none => some v
  | some o => if o.length < v.length then some v else some o

/-- The candidate values a pair list offers for canonical key `k`: values
of length at least 2 whose (lower-cased) label maps to `k`. -/
def tableCands (k : String) (pairs : List (Str × Str)) : List Str :=
  pairs.filterMap (fun lv =>
    if 2 ≤ lv.2.length ∧ firstKey key_mappings (lowerStr lv.1) = some k
    then some lv.2 else none)

/-! ### Concrete pages used by the theorems -/

/-- A page with no metadata, no matching elements and empty text. -/
def soupEmpty : Soup :=
  { select_one := fun _ => none
    select := fun _ => []
    ogTitle := none
    metaDescription := none
    ldScripts := []
    dls := []
    tableRows := []
    containerPairs := []
    paragraphs := []
    text := [] }

/-- `get_text(separator=' ', strip=True)` of a page holding a JSON-LD
script (script contents are part of `get_text`) and a two-column table row
`Duration | 4 years`. -/
def textC1 : Str :=
  str "\x7b\"@type\": \"Course\", \"timeToComplete\": \"3 years full-time\"\x7d Duration 4 years"

/-- A page whose JSON-LD block declares `timeToComplete` = `3 years
full-time` while its visible table says `Duration | 4 years`. -/
def soupC1 : Soup :=
  { soupEmpty with
    ldScripts := [some (Json.obj
      [("@type", Json.str (str "Course")),
       ("timeToComplete", Json.str (str "3 years full-time"))])]
    tableRows := [[str "Duration", str "4 years"]]
    text := textC1 }

/-- Page text whose first domestic fee pattern matches `$500` (below the
gate) while the third pattern matches `$9,000` (within the gate). -/
def textC3 : Str := str "domestic fee $500 fee: $9,000 per year"

/-- A page where only the plain `h1` selector matches, on an element whose
text contains (but does not equal) the generic word `home`. -/
def soupC6 : Soup :=
  { soupEmpty with
    select_one := fun sel =>
      if sel = "h1" then some ⟨str "Master of Home Design"⟩ else none }

/-- A page where only the second name selector matches, on an element that
passes the name filter. -/
def soupC6w : Soup :=
  { soupEmpty with
    select_one := fun sel =>
      if sel = "h1.program-title" then some ⟨str "Bachelor of Quantum Arts"⟩
      else none }

/-- Two table pairs mapping to `duration`: the later value is longer. -/
def pairsC7 : List (Str × Str) :=
  [(str "Duration", str "3 yrs"),
   (str "Course Length", str "3 years full-time")]

/-- A page whose meta description is 600 characters long. -/
def soupC8 : Soup :=
  { soupEmpty with metaDescription := some (List.replicate 600 'a') }

/-- A page whose meta description is 80 characters long. -/
def soupC8w : Soup :=
  { soupEmpty with metaDescription := some (List.replicate 80 'b') }

/-! ### Helper lemmas -/

set_option maxRecDepth 100000

theorem alookup_aupdate_eq {α : Type} (k : String) (v : α) :
    ∀ td : List (String × α), alookup k (aupdate k v td) = some v := by
  intro td
  induction td with
  | nil => simp [aupdate, alookup]
  | cons kv rest ih =>
    by_cases h : kv.1 = k
    · simp [aupdate, h, alookup]
    · simp [aupdate, h, alookup, ih]

theorem alookup_aupdate_ne {α : Type} (k k' : String) (v : α) (hne : k' ≠ k) :
    ∀ td : List (String × α), alookup k (aupdate k' v td) = alookup k td := by
  intro td
  induction td with
  | nil => simp [aupdate, alookup, hne]
  | cons kv rest ih =>
    by_cases h : kv.1 = k'
    · have hk : k' ≠ k := hne
      simp [aupdate, h, alookup, hk]
    · simp [aupdate, h, alookup, ih]

theorem pick_spec (acc : Option Str) (c : Str) :
    ∃ w, pick acc c = some w ∧ c.length ≤ w.length ∧
      (w = c ∨ acc = some w) ∧ (∀ o, acc = some o → o.length ≤ w.length) := by
  cases acc with
  | none => exact ⟨c, rfl, le_refl _, Or.inl rfl, by simp⟩
  | some o =>
    by_cases h : o.length < c.length
    · refine ⟨c, by simp [pick, h], le_refl _, Or.inl rfl, ?_⟩
      intro o' ho'
      rw [← Option.some.inj ho']
      exact Nat.le_of_lt h
    · refine ⟨o, by simp [pick, h], Nat.le_of_not_lt h, Or.inr rfl, ?_⟩
      intro o' ho'
      rw [← Option.some.inj ho']

theorem pickFold_mem_max : ∀ (cs : List Str) (acc : Option Str) (v : Str),
    List.foldl pick acc cs = some v →
    (acc = some v ∨ v ∈ cs) ∧ (∀ u ∈ cs, u.length ≤ v.length) ∧
    (∀ o, acc = some o → o.length ≤ v.length) := by
  intro cs
  induction cs with
  | nil =>
    intro acc v h
    simp only [List.foldl_nil] at h
    refine ⟨Or.inl h, by simp, ?_⟩
    intro o ho
    rw [h] at ho
    rw [Option.some.inj ho]
  | cons c cs ih =>
    intro acc v h
    simp only [List.foldl_cons] at h
    obtain ⟨w, hw, hcw, hwc, hacc⟩ := pick_spec acc c
    rw [hw] at h
    obtain ⟨h1, h2, h3⟩ := ih (some w) v h
    have hwv : w.length ≤ v.length := h3 w rfl
    refine ⟨?_, ?_, ?_⟩
    · rcases h1 with he | hm
      · rcases hwc with hc | ha
        · right
          rw [← Option.some.inj he, hc]
          exact List.mem_cons_self c cs
        · left
          rw [ha, Option.some.inj he]
      · right
        exact List.mem_cons_of_mem _ hm
    · intro u hu
      rcases List.mem_cons.mp hu with rfl | hm
      · exact le_trans hcw hwv
      · exact h2 u hm
    · intro o ho
      exact le_trans (hacc o ho) hwv

theorem alookup_map_table_value (td : List (String × Str)) (label value : Str)
    (k : String) :
    alookup k (map_table_value td label value) =
      if 2 ≤ value.length ∧ firstKey key_mappings label = some k
      then pick (alookup k td) value
      else alookup k td := by
  unfold map_table_value
  by_cases hlen : value.length < 2
  · have : ¬ (2 ≤ value.length ∧ firstKey key_mappings label = some k) := by
      intro hc
      exact absurd hc.1 (Nat.not_le_of_lt hlen)
    simp [hlen, this]
  · rw [if_neg hlen]
    cases hfk : firstKey key_mappings label with
    | none => simp [Nat.le_of_not_lt hlen]
    | some k' =>
      by_cases hk : k' = k
      · subst hk
        have hcond : 2 ≤ value.length ∧ some k' = some k' :=
          ⟨Nat.le_of_not_lt hlen, rfl⟩
        rw [if_pos hcond]
        cases hl : alookup k' td with
        | none => simp [hl, pick, alookup_aupdate_eq]
        | some old =>
          by_cases ho : old.length < value.length
          · simp [hl, ho, pick, alookup_aupdate_eq]
          · simp [hl, ho, pick]
      · have hcond : ¬ (2 ≤ value.length ∧ some k' = some k) := by
          intro hc
          exact hk (Option.some.inj hc.2)
        rw [if_neg hcond]
        cases hl : alookup k' td with
        | none => simp [hl, alookup_aupdate_ne k k' value hk td]
        | some old =>
          by_cases ho : old.length < value.length
          · simp [hl, ho, alookup_aupdate_ne k k' value hk td]
          · simp [hl, ho]

theorem tableCands_cons (lv : Str × Str) (rest : List (Str × Str)) (k : String) :
    tableCands k (lv :: rest) =
      if 2 ≤ lv.2.length ∧ firstKey key_mappings (lowerStr lv.1) = some k
      then lv.2 :: tableCands k rest
      else tableCands k rest := by
  by_cases h : 2 ≤ lv.2.length ∧ firstKey key_mappings (lowerStr lv.1) = some k
  · simp [tableCands, List.filterMap_cons, h]
  · simp [tableCands, List.filterMap_cons, h]

theorem alookup_processPairs_go :
    ∀ (pairs : List (Str × Str)) (td : List (String × Str)) (k : String),
    alookup k (pairs.foldl (fun td lv => map_table_value td (lowerStr lv.1) lv.2) td) =
      List.foldl pick (alookup k td) (tableCands k pairs) := by
  intro pairs
  induction pairs with
  | nil =>
    intro td k
    simp [tableCands]
  | cons lv rest ih =>
    intro td k
    simp only [List.foldl_cons]
    rw [ih, tableCands_cons]
    by_cases h : 2 ≤ lv.2.length ∧ firstKey key_mappings (lowerStr lv.1) = some k
    · rw [if_pos h, List.foldl_cons, alookup_map_table_value, if_pos h]
    · rw [if_neg h, alookup_map_table_value, if_neg h]

theorem feesGo_sound : ∀ (ps : List RE) (t r : Str),
    feesGo ps t = some r →
    ∃ h : Nat, 100000 < h ∧ h < 20000000 ∧ r = formatFee h := by
  intro ps
  induction ps with
  | nil => intro t r hr; simp [feesGo] at hr
  | cons p ps ih =>
    intro t r hr
    rw [feesGo] at hr
    cases hcap : research p t with
    | none =>
      simp only [hcap] at hr
      exact ih t r hr
    | some cap =>
      simp only [hcap] at hr
      cases hh : pyFloatH (dropCommas cap) with
      | none =>
        simp only [hh] at hr
        exact ih t r hr
      | some h =>
        simp only [hh] at hr
        by_cases hg : 100000 < h ∧ h < 20000000
        · rw [if_pos hg] at hr
          exact ⟨h, hg.1, hg.2, (Option.some.inj hr).symm⟩
        · rw [if_neg hg] at hr
          exact ih t r hr

theorem formatFee_ne_nil (h : Nat) : formatFee h ≠ [] := by
  simp [formatFee]

theorem fallbackScan_sound : ∀ (ms : List Str),
    fallbackScan ms ≠ [] →
    ∃ h : Nat, 500000 < h ∧ h < 5000000 ∧ fallbackScan ms = formatFee h := by
  intro ms
  induction ms with
  | nil => intro hne; simp [fallbackScan] at hne
  | cons m ms ih =>
    intro hne
    rw [fallbackScan] at hne ⊢
    cases hh : pyFloatH (dropCommas m) with
    | none =>
      simp only [hh] at hne ⊢
      exact ih hne
    | some h =>
      simp only [hh] at hne ⊢
      by_cases hg : 500000 < h ∧ h < 5000000
      · rw [if_pos hg]
        exact ⟨h, hg.1, hg.2, rfl⟩
      · rw [if_neg hg] at hne ⊢
        exact ih hne

theorem fallbackScan_hit : ∀ (ms : List Str) (m : Str) (h : Nat),
    m ∈ ms → pyFloatH (dropCommas m) = some h →
    500000 < h → h < 5000000 → fallbackScan ms ≠ [] := by
  intro ms
  induction ms with
  | nil => intro m h hm; simp at hm
  | cons m' ms ih =>
    intro m h hm hph hlo hhi
    rw [fallbackScan]
    cases hh : pyFloatH (dropCommas m') with
    | none =>
      simp only [hh]
      rcases List.mem_cons.mp hm with rfl | hmem
      · rw [hph] at hh
        exact absurd hh (by simp)
      · exact ih m h hmem hph hlo hhi
    | some h' =>
      simp only [hh]
      by_cases hg : 500000 < h' ∧ h' < 5000000
      · rw [if_pos hg]
        exact formatFee_ne_nil h'
      · rw [if_neg hg]
        rcases List.mem_cons.mp hm with rfl | hmem
        · rw [hph] at hh
          rw [← Option.some.inj hh] at hg
          exact absurd ⟨hlo, hhi⟩ hg
        · exact ih m h hmem hph hlo hhi

theorem atarGo_sound : ∀ (ps : List RE) (t : Str),
    atarGo ps t ≠ [] →
    ∃ h : Nat, 5000 ≤ h ∧ h ≤ 9995 ∧ atarGo ps t = pyFloatStrH h := by
  intro ps
  induction ps with
  | nil => intro t hne; simp [atarGo] at hne
  | cons p ps ih =>
    intro t hne
    rw [atarGo] at hne ⊢
    cases hcap : research p t with
    | none =>
      simp only [hcap] at hne ⊢
      exact ih t hne
    | some cap =>
      simp only [hcap] at hne ⊢
      cases hh : pyFloatH cap with
      | none =>
        simp only [hh] at hne ⊢
        exact ih t hne
      | some h =>
        simp only [hh] at hne ⊢
        by_cases hg : 5000 ≤ h ∧ h ≤ 9995
        · rw [if_pos hg]
          exact ⟨h, hg.1, hg.2, rfl⟩
        · rw [if_neg hg] at hne ⊢
          exact ih t hne

theorem cast_div100_le (a h : Nat) (hle : a * 100 ≤ h) :
    (a : Rat) ≤ (h : Rat) / 100 := by
  rw [le_div_iff₀ (by norm_num : (0 : Rat) < 100)]
  exact_mod_cast hle

theorem cast_div100_ge (b h : Nat) (hle : h ≤ b * 100) :
    (h : Rat) / 100 ≤ (b : Rat) := by
  rw [div_le_iff₀ (by norm_num : (0 : Rat) < 100)]
  exact_mod_cast hle

theorem cast_div100_lt (a h : Nat) (hlt : a * 100 < h) :
    (a : Rat) < (h : Rat) / 100 := by
  rw [lt_div_iff₀ (by norm_num : (0 : Rat) < 100)]
  exact_mod_cast hlt

theorem cast_div100_gt (b h : Nat) (hlt : h < b * 100) :
    (h : Rat) / 100 < (b : Rat) := by
  rw [div_lt_iff₀ (by norm_num : (0 : Rat) < 100)]
  exact_mod_cast hlt

theorem atar_upper_cast (h : Nat) (hle : h ≤ 9995) :
    (h : Rat) / 100 ≤ 99.95 := by
  rw [div_le_iff₀ (by norm_num : (0 : Rat) < 100)]
  calc (h : Rat) ≤ 9995 := by exact_mod_cast hle
  _ ≤ 99.95 * 100 := by norm_num

theorem descSelGo_len : ∀ (sels : List String) (soup : Soup) (d : Str),
    descSelGo sels soup = some d → d.length ≤ 500 := by
  intro sels
  induction sels with
  | nil => intro soup d hd; simp [descSelGo] at hd
  | cons sel rest ih =>
    intro soup d hd
    rw [descSelGo] at hd
    cases he : soup.select_one sel with
    | none =>
      simp only [he] at hd
      exact ih soup d hd
    | some e =>
      simp only [he] at hd
      by_cases hl : 100 < e.text.length
      · rw [if_pos hl] at hd
        rw [← Option.some.inj hd]
        simp
      · rw [if_neg hl] at hd
        exact ih soup d hd

theorem descParaGo_len : ∀ (ps : List Str), (descParaGo ps).length ≤ 500 := by
  intro ps
  induction ps with
  | nil => simp [descParaGo]
  | cons p rest ih =>
    rw [descParaGo]
    by_cases hc : (decide (100 < p.length) &&
        !([str "cookie", str "privacy", str "javascript"].any
            (fun w => isSubstr w (lowerStr p)))) = true
    · rw [if_pos hc]
      simp
    · rw [if_neg hc]
      exact ih

theorem descAfterMeta_len (soup : Soup) : (descAfterMeta soup).length ≤ 500 := by
  rw [descAfterMeta]
  cases hd : descSelGo descriptionSelectors soup with
  | none => exact descParaGo_len soup.paragraphs
  | some d => exact descSelGo_len descriptionSelectors soup d hd

theorem smart_extract_fees_spec (soup : Soup) (t : Str) :
    smart_extract_fees soup t "domestic" =
      (match feesGo feeDomesticPatterns t with
       | some r => r
       | none => fallbackScan (findall feeFallback t)) ∧
    smart_extract_fees soup t "international" =
      (match feesGo feeInternationalPatterns t with
       | some r => r
       | none => []) := by
  constructor <;> simp [smart_extract_fees]

/-! ### Claim theorems -/

/-- Claim C1: the spec's priority invariant (`Structured-Data` beats
`Tabular` beats the rest) does not hold of the code, because
`extract_course_details` never invokes `_extract_json_ld` or
`_extract_from_tables`. On `soupC1`, both the Structured-Data parser and
the Tabular extractor independently produce a `duration` candidate — the
Structured-Data one is `3 years full-time` — yet the returned record's
`duration` is the pattern-matching result `4 years`. -/
theorem c1_structured_data_ignored :
    alookup "duration" (extract_json_ld soupC1) =
      some (Json.str (str "3 years full-time")) ∧
    alookup "duration" (extract_from_tables soupC1) = some (str "4 years") ∧
    (extract_course_details soupC1 "https://x.edu/a").duration =
      str "4 years" ∧
    (extract_course_details soupC1 "https://x.edu/a").duration ≠
      str "3 years full-time" :=
  ⟨rfl, by decide, by decide, by decide⟩

/-- Claim C2 counterexample: the record has no explicit absent marker.
On a page where no strategy matches anything, `career_outcomes` is the
bare empty list and the string fields are bare empty strings. -/
theorem c2_counterexample :
    (extract_course_details soupEmpty "").career_outcomes = ([] : List Str) ∧
    (extract_course_details soupEmpty "").name = ([] : Str) ∧
    (extract_course_details soupEmpty "").atar = ([] : Str) :=
  ⟨by decide, by decide, by decide⟩

/-- Claim C2 amended: the record always carries the twelve fixed fields of
`CourseRecord`; a field no strategy filled holds the empty string (empty
list for `career_outcomes`) rather than a distinguished absent marker: if
no career selector matches, `career_outcomes` is `[]`. -/
theorem c2_careers_empty_list : ∀ (soup : Soup) (url : String),
    (∀ sel ∈ careerSelectors, soup.select sel = []) →
    (extract_course_details soup url).career_outcomes = [] := by
  intro soup url h
  have h1 := h "[class*=\"career\"] li" (by decide)
  have h2 := h "[class*=\"outcome\"] li" (by decide)
  have h3 := h "[class*=\"employment\"] li" (by decide)
  have h4 := h "[class*=\"graduate\"] li" (by decide)
  have h5 := h ".careers li" (by decide)
  have h6 := h ".opportunities li" (by decide)
  have hrec : (extract_course_details soup url).career_outcomes =
      smart_extract_careers soup := rfl
  rw [hrec, smart_extract_careers, careerSelectors]
  simp [careersGo, h1, h2, h3, h4, h5, h6]

theorem c2_careers_empty_list_witness :
    (extract_course_details soupEmpty "https://example.edu/q").career_outcomes
      = [] :=
  c2_careers_empty_list soupEmpty "https://example.edu/q" (fun _ _ => rfl)

/-- Claim C3 counterexample: on `textC3` the first domestic fee pattern
matches with capture `500`, whose value fails the plausibility gate —
yet evaluation does not end with no candidate: the third pattern in the
same pass matches and yields `$9,000`. -/
theorem c3_counterexample :
    research domPat1 textC3 = some (str "500") ∧
    pyFloatH (dropCommas (str "500")) = some 50000 ∧
    ¬ (100000 < 50000 ∧ 50000 < 20000000) ∧
    smart_extract_fees soupEmpty textC3 "domestic" = str "$9,000" :=
  ⟨by decide, by decide, by decide, by decide⟩

/-- Claim C3 amended: a match whose captured value fails the field's
numeric gate is discarded as a candidate, but evaluation then CONTINUES
with the later patterns of the list (for both the fee and the
admission-rank extractors), rather than ending with no candidate. -/
theorem c3_gate_failure_falls_through :
    ∀ (t : Str) (p : RE) (ps : List RE) (cap : Str) (h : Nat),
    (research p t = some cap → pyFloatH (dropCommas cap) = some h →
      ¬ (100000 < h ∧ h < 20000000) → feesGo (p :: ps) t = feesGo ps t) ∧
    (research p t = some cap → pyFloatH cap = some h →
      ¬ (5000 ≤ h ∧ h ≤ 9995) → atarGo (p :: ps) t = atarGo ps t) := by
  intro t p ps cap h
  constructor
  · intro h1 h2 h3
    rw [feesGo]
    simp only [h1, h2]
    rw [if_neg h3]
  · intro h1 h2 h3
    rw [atarGo]
    simp only [h1, h2]
    rw [if_neg h3]

theorem c3_gate_failure_falls_through_witness :
    feesGo (domPat1 :: [domPat2, domPat3]) textC3 =
      feesGo [domPat2, domPat3] textC3 :=
  (c3_gate_failure_falls_through textC3 domPat1 [domPat2, domPat3]
      (str "500") 50000).1 (by decide) (by decide) (by decide)

/-- Claim C4: a fee match populates `fees_domestic`/`fees_international`
only with a value whose parsed amount lies in `[1000, 200000]` (the code
gates are in fact strict, hence within the closed range); `domestic fee
$500` yields nothing and `domestic fee $12,500 per year` yields
`$12,500`. The amount is `h` hundredths, i.e. `h / 100` dollars. -/
theorem c4_fee_gate :
    (∀ (soup : Soup) (t : Str) (ft : String),
      smart_extract_fees soup t ft ≠ [] →
      ∃ h : Nat, smart_extract_fees soup t ft = formatFee h ∧
        (1000 : Rat) ≤ (h : Rat) / 100 ∧ (h : Rat) / 100 ≤ (200000 : Rat)) ∧
    smart_extract_fees soupEmpty (str "domestic fee $500") "domestic" = [] ∧
    smart_extract_fees soupEmpty (str "domestic fee $12,500 per year")
      "domestic" = str "$12,500" := by
  refine ⟨?_, by decide, by decide⟩
  intro soup t ft hne
  simp only [smart_extract_fees] at hne ⊢
  cases hfg : feesGo
      (if ft = "domestic" then feeDomesticPatterns
       else feeInternationalPatterns) t with
  | some r =>
    simp only [hfg] at hne ⊢
    obtain ⟨h, hlo, hhi, hr⟩ := feesGo_sound _ t r hfg
    exact ⟨h, hr, cast_div100_le 1000 h (by omega),
      cast_div100_ge 200000 h (by omega)⟩
  | none =>
    simp only [hfg] at hne ⊢
    by_cases hd : ft = "domestic"
    · rw [if_pos hd] at hne ⊢
      obtain ⟨h, hlo, hhi, hr⟩ := fallbackScan_sound _ hne
      exact ⟨h, hr, cast_div100_le 1000 h (by omega),
        cast_div100_ge 200000 h (by omega)⟩
    · rw [if_neg hd] at hne
      exact absurd rfl hne

theorem c4_fee_gate_witness :
    ∃ h : Nat,
      smart_extract_fees soupEmpty (str "domestic fee $12,500 per year")
        "domestic" = formatFee h ∧
      (1000 : Rat) ≤ (h : Rat) / 100 ∧ (h : Rat) / 100 ≤ (200000 : Rat) :=
  c4_fee_gate.1 soupEmpty (str "domestic fee $12,500 per year") "domestic"
    (by decide)

/-- Claim C5: an admission-rank value is accepted only when its parsed
value lies in `[50, 99.95]` (`h` hundredths, i.e. `h / 100` points, and
the result is `str(float(...))` of that value); `ATAR: 101.2` yields
nothing and `ATAR: 88.45` yields exactly `88.45`. -/
theorem c5_atar_gate :
    (∀ t : Str, extract_atar t ≠ [] →
      ∃ h : Nat, extract_atar t = pyFloatStrH h ∧
        (50 : Rat) ≤ (h : Rat) / 100 ∧ (h : Rat) / 100 ≤ 99.95) ∧
    extract_atar (str "ATAR: 101.2") = [] ∧
    extract_atar (str "ATAR: 88.45") = str "88.45" := by
  refine ⟨?_, by decide, by decide⟩
  intro t hne
  rw [extract_atar] at hne ⊢
  obtain ⟨h, hlo, hhi, hr⟩ := atarGo_sound atarPatterns t hne
  exact ⟨h, hr, cast_div100_le 50 h (by omega), atar_upper_cast h hhi⟩

theorem c5_atar_gate_witness :
    ∃ h : Nat, extract_atar (str "ATAR: 88.45") = pyFloatStrH h ∧
      (50 : Rat) ≤ (h : Rat) / 100 ∧ (h : Rat) / 100 ≤ 99.95 :=
  c5_atar_gate.1 (str "ATAR: 88.45") (by decide)

/-- Claim C6 counterexample: the name filter is a substring test, not an
equality test. On `soupC6` only the `h1` selector matches; its text
`Master of Home Design` has admissible length and equals none of the
placeholders `menu`, `search`, `home`, `login` — so under the claim it
should be returned — yet the code rejects it (its lower-casing contains
`home`) and the extracted name is empty. -/
theorem c6_counterexample :
    soupC6.select_one "h1" = some ⟨str "Master of Home Design"⟩ ∧
    5 < (str "Master of Home Design").length ∧
    (str "Master of Home Design").length < 200 ∧
    lowerStr (str "Master of Home Design") ≠ str "menu" ∧
    lowerStr (str "Master of Home Design") ≠ str "search" ∧
    lowerStr (str "Master of Home Design") ≠ str "home" ∧
    lowerStr (str "Master of Home Design") ≠ str "login" ∧
    smart_extract_name soupC6 "" = [] :=
  ⟨by decide, by decide, by decide, by decide, by decide, by decide,
   by decide, by decide⟩

/-- Claim C6 amended: selectors are evaluated in listed order and the
first matched element passing the filter wins, where the filter requires
length strictly between 5 and 200 and that the lower-cased text CONTAIN
none of `menu`, `navigation`, `search`, `login`, `home` as a substring;
in particular, when the first selector matches nothing and the second
matches a passing element, that element's text is returned. -/
theorem c6_cascade_substring_filter :
    ∀ (soup : Soup) (url : String) (e : Elem),
    soup.select_one "h1.course-title" = none →
    soup.select_one "h1.program-title" = some e →
    5 < e.text.length → e.text.length < 200 →
    (∀ w ∈ nameBadWords, isSubstr (str w) (lowerStr e.text) = false) →
    smart_extract_name soup url = e.text := by
  intro soup url e h1 h2 hlen hlen2 hw
  have hpass : namePass e.text = true := by
    have hb : (nameBadWords.any
        (fun w => isSubstr (str w) (lowerStr e.text))) = false := by
      rw [List.any_eq_false]
      intro w hwmem
      simp [hw w hwmem]
    have hne : e.text ≠ [] := by
      intro hnil
      rw [hnil] at hlen
      simp at hlen
    simp [namePass, hb, hlen, hlen2, hne]
  rw [smart_extract_name, nameSelectors, nameCascade]
  simp only [h1]
  rw [nameCascade]
  simp only [h2, hpass, if_true]

theorem c6_cascade_substring_filter_witness :
    smart_extract_name soupC6w "https://example.edu/q" =
      str "Bachelor of Quantum Arts" :=
  c6_cascade_substring_filter soupC6w "https://example.edu/q"
    ⟨str "Bachelor of Quantum Arts"⟩ (by decide) (by decide) (by decide)
    (by decide) (by decide)

/-- Claim C7: among the harvested label/value pairs mapping to one
canonical field (value text of length at least 2), the retained value is
one of the candidates and is of maximal length among them; moreover one
update step replaces a stored value only when the new value is strictly
longer — so a later equal-or-shorter value never overwrites (no
last-writer-wins). -/
theorem c7_longest_value_retained :
    (∀ (pairs : List (Str × Str)) (k : String) (v : Str),
      alookup k (processPairs pairs) = some v →
      v ∈ tableCands k pairs ∧ ∀ u ∈ tableCands k pairs,
        u.length ≤ v.length) ∧
    (∀ old v : Str, ¬ old.length < v.length →
      pick (some old) v = some old) ∧
    (∀ old v : Str, old.length < v.length →
      pick (some old) v = some v) := by
  refine ⟨?_, ?_, ?_⟩
  · intro pairs k v hv
    rw [processPairs, alookup_processPairs_go] at hv
    have h0 : alookup k ([] : List (String × Str)) = none := rfl
    rw [h0] at hv
    obtain ⟨h1, h2, _⟩ := pickFold_mem_max (tableCands k pairs) none v hv
    rcases h1 with he | hm
    · exact absurd he (by simp)
    · exact ⟨hm, h2⟩
  · intro old v h
    simp [pick, h]
  · intro old v h
    simp [pick, h]

theorem c7_longest_value_retained_witness :
    str "3 years full-time" ∈ tableCands "duration" pairsC7 ∧
    ∀ u ∈ tableCands "duration" pairsC7,
      u.length ≤ (str "3 years full-time").length :=
  c7_longest_value_retained.1 pairsC7 "duration" (str "3 years full-time")
    (by decide)

/-- Claim C8 counterexample: an over-long description is truncated with
NO ellipsis marker appended: a 600-character meta description is stored
as exactly its first 500 characters, ending in neither `...` nor `…`. -/
theorem c8_counterexample :
    soupC8.metaDescription = some (List.replicate 600 'a') ∧
    500 < (List.replicate 600 'a').length ∧
    smart_extract_description soupC8 = List.replicate 500 'a' ∧
    (str "...").isSuffixOf (smart_extract_description soupC8) = false ∧
    (str "…").isSuffixOf (smart_extract_description soupC8) = false :=
  ⟨rfl, by decide, by decide, by decide, by decide⟩

/-- Claim C8 amended: the stored description never exceeds 500
characters, and a selected meta description longer than 50 characters is
stored as its plain 500-character truncation, with no ellipsis marker. -/
theorem c8_description_truncation :
    (∀ soup : Soup, (smart_extract_description soup).length ≤ 500) ∧
    (∀ (soup : Soup) (c : Str), soup.metaDescription = some c →
      50 < c.length → smart_extract_description soup = c.take 500) := by
  constructor
  · intro soup
    rw [smart_extract_description]
    cases hm : soup.metaDescription with
    | none =>
      simp only [hm]
      exact descAfterMeta_len soup
    | some c =>
      simp only [hm]
      by_cases hl : 50 < c.length
      · rw [if_pos hl]
        simp
      · rw [if_neg hl]
        exact descAfterMeta_len soup
  · intro soup c hm hl
    rw [smart_extract_description]
    simp only [hm]
    rw [if_pos hl]

theorem c8_description_truncation_witness :
    smart_extract_description soupC8w = (List.replicate 80 'b').take 500 :=
  c8_description_truncation.2 soupC8w (List.replicate 80 'b') rfl (by decide)

/-- Claim C9: the pipeline is a pure function of the parsed page and the
source URL — the extraction methods read nothing but their arguments and
the class's read-only tables, so two calls on the same input yield the
same record. -/
theorem c9_extract_deterministic : ∀ (soup : Soup) (url : String),
    extract_course_details soup url = extract_course_details soup url :=
  fun _ _ => rfl

/-- Claim C10: when none of the three qualified domestic patterns
matches, an unqualified `$X per year` amount strictly between 5000 and
50000 still populates `fees_domestic` (formatted `$N,NNN` by
`formatFee`); international extraction has no such fallback and yields
nothing when its two patterns fail. -/
theorem c10_domestic_fallback_only :
    (∀ (soup : Soup) (t m : Str) (h : Nat),
      research domPat1 t = none → research domPat2 t = none →
      research domPat3 t = none →
      m ∈ findall feeFallback t → pyFloatH (dropCommas m) = some h →
      500000 < h → h < 5000000 →
      ∃ h2 : Nat, smart_extract_fees soup t "domestic" = formatFee h2 ∧
        (5000 : Rat) < (h2 : Rat) / 100 ∧
        (h2 : Rat) / 100 < (50000 : Rat)) ∧
    (∀ (soup : Soup) (t : Str),
      research intPat1 t = none → research intPat2 t = none →
      smart_extract_fees soup t "international" = []) := by
  constructor
  · intro soup t m h r1 r2 r3 hm hp hlo hhi
    have hfg : feesGo feeDomesticPatterns t = none := by
      simp [feeDomesticPatterns, feesGo, r1, r2, r3]
    have hne : fallbackScan (findall feeFallback t) ≠ [] :=
      fallbackScan_hit _ m h hm hp hlo hhi
    obtain ⟨h2, h2lo, h2hi, hres⟩ := fallbackScan_sound _ hne
    refine ⟨h2, ?_, cast_div100_lt 5000 h2 (by omega),
      cast_div100_gt 50000 h2 (by omega)⟩
    rw [(smart_extract_fees_spec soup t).1]
    simp only [hfg]
    exact hres
  · intro soup t r1 r2
    have hfg : feesGo feeInternationalPatterns t = none := by
      simp [feeInternationalPatterns, feesGo, r1, r2]
    rw [(smart_extract_fees_spec soup t).2]
    simp only [hfg]

theorem c10_domestic_fallback_only_witness :
    (∃ h2 : Nat,
      smart_extract_fees soupEmpty (str "$9,000 per year") "domestic" =
        formatFee h2 ∧
      (5000 : Rat) < (h2 : Rat) / 100 ∧ (h2 : Rat) / 100 < (50000 : Rat)) ∧
    smart_extract_fees soupEmpty (str "$9,000 per year") "international"
      = [] :=
  ⟨c10_domestic_fallback_only.1 soupEmpty (str "$9,000 per year")
      (str "9,000") 900000 (by decide) (by decide) (by decide) (by decide)
      (by decide) (by decide) (by decide),
   c10_domestic_fallback_only.2 soupEmpty (str "$9,000 per year")
      (by decide) (by decide)⟩
